import Mathlib

/-!
Verification of the mcp-twitch server configuration (src/mcp_twitch_server.py)
against its natural-language specification.  JSON-like documents are embedded
as a nested inductive; numbers are modelled as integers (no claim under
verification depends on floating point).  Upstream HTTP responses are inputs
of the handler functions, and the mutating Python code is embedded as pure
state-passing functions.
-/

/-- JSON-like value, the shape handled by json.load and passed around the
server (dict / list / str / number / bool / None). -/
inductive Json where
  | null
  | bool (b : Bool)
  | num (n : Int)
  | str (s : String)
  | arr (elems : List Json)
  | obj (fields : List (String × Json))
deriving Repr

/-- The test performed by _fix_schema_types on one mapping entry:
key == the string type and value == the string Bool
(src/mcp_twitch_server.py line 112). -/
def isTypeBool (k : String) (v : Json) : Bool :=
  match v with
  | .str s => k == "type" && s == "Bool"
  | _ => false

/-- How _fix_schema_types treats one mapping entry: a (type, Bool) entry
becomes (type, boolean); any other entry keeps its key and has the
transformation recurse into its value (which is the identity on scalars,
matching the isinstance(value, (dict, list)) guard). -/
def fixEntry (k : String) (v : Json) (fixed : Json) : String × Json :=
  match isTypeBool k v with
  | true => (k, Json.str "boolean")
  | false => (k, fixed)

mutual

/-- Embedding of TwitchMCPServer._fix_schema_types (src/mcp_twitch_server.py
lines 108-120): recursively rewrites every mapping entry whose key is
exactly the string type and whose value is exactly the string Bool to the
canonical value boolean; recurses into dict values and list elements;
touches nothing else.  The Python mutates in place; this is the same
transformation as a pure function. -/
def fix_schema_types : Json → Json
  | .obj fs => .obj (fix_schema_types_fields fs)
  | .arr xs => .arr (fix_schema_types_list xs)
  | j => j

/-- List-element part of fix_schema_types (the isinstance(obj, list) branch). -/
def fix_schema_types_list : List Json → List Json
  | [] => []
  | x :: xs => fix_schema_types x :: fix_schema_types_list xs

/-- Mapping part of fix_schema_types (the isinstance(obj, dict) branch). -/
def fix_schema_types_fields : List (String × Json) → List (String × Json)
  | [] => []
  | (k, v) :: fs =>
      fixEntry k v (fix_schema_types v) :: fix_schema_types_fields fs

end

mutual

/-- Number of occurrences of the string t as a mapping value or list
element anywhere in the document (the places the spec sentence about the
Document Normalizer talks about). -/
def countTok (t : String) : Json → Nat
  | .str s => if s == t then 1 else 0
  | .arr xs => countTokList t xs
  | .obj fs => countTokFields t fs
  | _ => 0

/-- countTok over the elements of a list. -/
def countTokList (t : String) : List Json → Nat
  | [] => 0
  | x :: xs => countTok t x + countTokList t xs

/-- countTok over the values of a mapping. -/
def countTokFields (t : String) : List (String × Json) → Nat
  | [] => 0
  | p :: fs => countTok t p.2 + countTokFields t fs

end

mutual

/-- Number of mapping entries, at any depth, whose key is the string type
and whose value is the string Bool (exactly the entries _fix_schema_types
rewrites). -/
def countTypeBool : Json → Nat
  | .arr xs => countTypeBoolList xs
  | .obj fs => countTypeBoolFields fs
  | _ => 0

/-- countTypeBool over the elements of a list. -/
def countTypeBoolList : List Json → Nat
  | [] => 0
  | x :: xs => countTypeBool x + countTypeBoolList xs

/-- countTypeBool over the entries of a mapping. -/
def countTypeBoolFields : List (String × Json) → Nat
  | [] => 0
  | (k, v) :: fs =>
      (match isTypeBool k v with | true => 1 | false => 0) + countTypeBool v
        + countTypeBoolFields fs

end

theorem isTypeBool_boolean (k : String) : isTypeBool k (Json.str "boolean") = false := by
  have h : ("boolean" == "Bool") = false := rfl
  simp [isTypeBool, h]

theorem isTypeBool_fix (k : String) (v : Json) :
    isTypeBool k (fix_schema_types v) = isTypeBool k v := by
  cases v <;> rfl

theorem isTypeBool_eq_true (k : String) (v : Json) (h : isTypeBool k v = true) :
    v = Json.str "Bool" := by
  cases v <;> simp [isTypeBool] at h
  rename_i s
  simp [h.2]

mutual

theorem countTypeBool_fix : ∀ j, countTypeBool (fix_schema_types j) = 0
  | .null => rfl
  | .bool _ => rfl
  | .num _ => rfl
  | .str _ => rfl
  | .arr xs => by
      simpa [fix_schema_types, countTypeBool] using countTypeBoolList_fix xs
  | .obj fs => by
      simpa [fix_schema_types, countTypeBool] using countTypeBoolFields_fix fs

theorem countTypeBoolList_fix : ∀ xs, countTypeBoolList (fix_schema_types_list xs) = 0
  | [] => rfl
  | x :: xs => by
      simp [fix_schema_types_list, countTypeBoolList, countTypeBool_fix x,
        countTypeBoolList_fix xs]

theorem countTypeBoolFields_fix :
    ∀ fs, countTypeBoolFields (fix_schema_types_fields fs) = 0
  | [] => rfl
  | (k, v) :: fs => by
      cases h : isTypeBool k v with
      | true =>
          simp [fix_schema_types_fields, countTypeBoolFields, fixEntry, h,
            isTypeBool_boolean, countTypeBool, countTypeBoolFields_fix fs]
      | false =>
          simp [fix_schema_types_fields, countTypeBoolFields, fixEntry, h,
            isTypeBool_fix, countTypeBool_fix v, countTypeBoolFields_fix fs]

end

mutual

theorem countTok_boolean_fix :
    ∀ j, countTok "boolean" (fix_schema_types j) = countTok "boolean" j + countTypeBool j
  | .null => rfl
  | .bool _ => rfl
  | .num _ => rfl
  | .str _ => by simp [fix_schema_types, countTypeBool]
  | .arr xs => by
      simpa [fix_schema_types, countTok, countTypeBool] using countTokList_boolean_fix xs
  | .obj fs => by
      simpa [fix_schema_types, countTok, countTypeBool] using countTokFields_boolean_fix fs

theorem countTokList_boolean_fix :
    ∀ xs, countTokList "boolean" (fix_schema_types_list xs)
      = countTokList "boolean" xs + countTypeBoolList xs
  | [] => rfl
  | x :: xs => by
      simp [fix_schema_types_list, countTokList, countTypeBoolList,
        countTok_boolean_fix x, countTokList_boolean_fix xs]
      omega

theorem countTokFields_boolean_fix :
    ∀ fs, countTokFields "boolean" (fix_schema_types_fields fs)
      = countTokFields "boolean" fs + countTypeBoolFields fs
  | [] => rfl
  | (k, v) :: fs => by
      cases h : isTypeBool k v with
      | true =>
          have hv := isTypeBool_eq_true k v h
          subst hv
          simp [fix_schema_types_fields, countTokFields, countTypeBoolFields, fixEntry, h,
            countTok, countTypeBool, countTokFields_boolean_fix fs]
          omega
      | false =>
          simp [fix_schema_types_fields, countTokFields, countTypeBoolFields, fixEntry, h,
            countTok_boolean_fix v, countTokFields_boolean_fix fs]
          omega

end

mutual

theorem fix_schema_types_noop :
    ∀ j, countTypeBool j = 0 → fix_schema_types j = j
  | .null, _ => rfl
  | .bool _, _ => rfl
  | .num _, _ => rfl
  | .str _, _ => rfl
  | .arr xs, h => by
      simp [countTypeBool] at h
      simp [fix_schema_types, fix_schema_types_list_noop xs h]
  | .obj fs, h => by
      simp [countTypeBool] at h
      simp [fix_schema_types, fix_schema_types_fields_noop fs h]

theorem fix_schema_types_list_noop :
    ∀ xs, countTypeBoolList xs = 0 → fix_schema_types_list xs = xs
  | [], _ => rfl
  | x :: xs, h => by
      simp [countTypeBoolList] at h
      simp [fix_schema_types_list, fix_schema_types_noop x h.1,
        fix_schema_types_list_noop xs h.2]

theorem fix_schema_types_fields_noop :
    ∀ fs, countTypeBoolFields fs = 0 → fix_schema_types_fields fs = fs
  | [], _ => rfl
  | (k, v) :: fs, h => by
      cases hb : isTypeBool k v with
      | true => simp [countTypeBoolFields, hb] at h
      | false =>
          simp [countTypeBoolFields, hb] at h
          simp [fix_schema_types_fields, fixEntry, hb, fix_schema_types_noop v h.1,
            fix_schema_types_fields_noop fs h.2]

end


/-- A position inside a JSON document: the root, the i-th element of an
array, or the value of the i-th entry of a mapping. -/
inductive JPath where
  | here
  | atIdx (i : Nat) (p : JPath)
  | atField (i : Nat) (p : JPath)
deriving Repr

/-- The subdocument at a position (none when the position does not exist). -/
def subAt : Json → JPath → Option Json
  | j, .here => some j
  | .arr xs, .atIdx i p =>
      (match xs.get? i with
       | some x => subAt x p
       | none => none)
  | .obj fs, .atField i p =>
      (match fs.get? i with
       | some e => subAt e.2 p
       | none => none)
  | _, _ => none

/-- Whether a position is the value of a mapping entry with key type and
value the string Bool — exactly the positions _fix_schema_types rewrites. -/
def typeBoolValuePos : Json → JPath → Bool
  | .arr xs, .atIdx i p =>
      (match xs.get? i with
       | some x => typeBoolValuePos x p
       | none => false)
  | .obj fs, .atField i p =>
      (match fs.get? i with
       | some e =>
           (match p with
            | .here => isTypeBool e.1 e.2
            | .atIdx i2 p2 => typeBoolValuePos e.2 (.atIdx i2 p2)
            | .atField i2 p2 => typeBoolValuePos e.2 (.atField i2 p2))
       | none => false)
  | _, _ => false

/-- The local content of one document node: the scalar value for scalars,
the length for arrays, the key list for mappings.  Two documents that agree
node-by-node under this view are identical field-for-field. -/
inductive HeadView where
  | vnull
  | vbool (b : Bool)
  | vnum (n : Int)
  | vstr (s : String)
  | varr (n : Nat)
  | vobj (keys : List String)
deriving DecidableEq, Repr

/-- The head view of a document. -/
def headView : Json → HeadView
  | .null => .vnull
  | .bool b => .vbool b
  | .num n => .vnum n
  | .str s => .vstr s
  | .arr xs => .varr xs.length
  | .obj fs => .vobj (fs.map Prod.fst)

theorem fixEntry_fst (k : String) (v w : Json) : (fixEntry k v w).1 = k := by
  cases h : isTypeBool k v <;> simp [fixEntry, h]

theorem fix_schema_types_list_length (xs : List Json) :
    (fix_schema_types_list xs).length = xs.length := by
  induction xs with
  | nil => rfl
  | cons x xs ih => simp [fix_schema_types_list, ih]

theorem fix_schema_types_fields_keys (fs : List (String × Json)) :
    (fix_schema_types_fields fs).map Prod.fst = fs.map Prod.fst := by
  induction fs with
  | nil => rfl
  | cons e fs ih =>
      obtain ⟨k, v⟩ := e
      simp [fix_schema_types_fields, fixEntry_fst, ih]

theorem headView_fix (j : Json) : headView (fix_schema_types j) = headView j := by
  cases j with
  | arr xs => simp [fix_schema_types, headView, fix_schema_types_list_length]
  | obj fs => simp [fix_schema_types, headView, fix_schema_types_fields_keys]
  | null => rfl
  | bool b => rfl
  | num n => rfl
  | str s => rfl

theorem fix_schema_types_list_get? (xs : List Json) (i : Nat) :
    (fix_schema_types_list xs).get? i = (xs.get? i).map fix_schema_types := by
  induction xs generalizing i with
  | nil => cases i <;> rfl
  | cons x xs ih =>
      cases i with
      | zero => rfl
      | succ n => simpa [fix_schema_types_list] using ih n

theorem fix_schema_types_fields_get? (fs : List (String × Json)) (i : Nat) :
    (fix_schema_types_fields fs).get? i
      = (fs.get? i).map (fun e => fixEntry e.1 e.2 (fix_schema_types e.2)) := by
  induction fs generalizing i with
  | nil => cases i <;> rfl
  | cons e fs ih =>
      cases i with
      | zero => rfl
      | succ n => simpa [fix_schema_types_fields] using ih n

theorem headView_subAt_fix : ∀ (p : JPath) (j : Json),
    (subAt (fix_schema_types j) p).map headView
      = (match typeBoolValuePos j p with
         | true => some (HeadView.vstr "boolean")
         | false => (subAt j p).map headView)
  | .here, j => by
      simp [subAt, typeBoolValuePos, headView_fix j]
  | .atIdx i q, j => by
      cases j with
      | arr xs =>
          simp only [fix_schema_types, subAt, typeBoolValuePos,
            fix_schema_types_list_get?]
          cases hget : xs.get? i with
          | none => rfl
          | some x => simpa using headView_subAt_fix q x
      | null => rfl
      | bool b => rfl
      | num n => rfl
      | str s => rfl
      | obj fs => rfl
  | .atField i q, j => by
      cases j with
      | obj fs =>
          simp only [fix_schema_types, subAt, typeBoolValuePos,
            fix_schema_types_fields_get?]
          cases hget : fs.get? i with
          | none => rfl
          | some e =>
              obtain ⟨k, v⟩ := e
              simp only [Option.map]
              cases hb : isTypeBool k v with
              | true =>
                  have hv := isTypeBool_eq_true k v hb
                  subst hv
                  cases q with
                  | here => simp [fixEntry, hb, subAt, headView]
                  | atIdx i2 q2 =>
                      simp [fixEntry, hb, subAt, typeBoolValuePos]
                  | atField i2 q2 =>
                      simp [fixEntry, hb, subAt, typeBoolValuePos]
              | false =>
                  cases q with
                  | here =>
                      simp [fixEntry, hb, subAt, headView_fix v]
                  | atIdx i2 q2 =>
                      simpa [fixEntry, hb] using headView_subAt_fix (.atIdx i2 q2) v
                  | atField i2 q2 =>
                      simpa [fixEntry, hb] using headView_subAt_fix (.atField i2 q2) v
      | null => rfl
      | bool b => rfl
      | num n => rfl
      | str s => rfl
      | arr xs => rfl

mutual

theorem countTok_Bool_fix :
    ∀ j, countTok "Bool" (fix_schema_types j) + countTypeBool j = countTok "Bool" j
  | .null => rfl
  | .bool _ => rfl
  | .num _ => rfl
  | .str _ => by simp [fix_schema_types, countTypeBool]
  | .arr xs => by
      simpa [fix_schema_types, countTok, countTypeBool] using countTokList_Bool_fix xs
  | .obj fs => by
      simpa [fix_schema_types, countTok, countTypeBool] using countTokFields_Bool_fix fs

theorem countTokList_Bool_fix :
    ∀ xs, countTokList "Bool" (fix_schema_types_list xs) + countTypeBoolList xs
      = countTokList "Bool" xs
  | [] => rfl
  | x :: xs => by
      have h1 := countTok_Bool_fix x
      have h2 := countTokList_Bool_fix xs
      simp [fix_schema_types_list, countTokList, countTypeBoolList]
      omega

theorem countTokFields_Bool_fix :
    ∀ fs, countTokFields "Bool" (fix_schema_types_fields fs) + countTypeBoolFields fs
      = countTokFields "Bool" fs
  | [] => rfl
  | (k, v) :: fs => by
      cases h : isTypeBool k v with
      | true =>
          have hv := isTypeBool_eq_true k v h
          subst hv
          have h2 := countTokFields_Bool_fix fs
          simp [fix_schema_types_fields, countTokFields, countTypeBoolFields, fixEntry, h,
            countTok, countTypeBool]
          omega
      | false =>
          have h1 := countTok_Bool_fix v
          have h2 := countTokFields_Bool_fix fs
          simp [fix_schema_types_fields, countTokFields, countTypeBoolFields, fixEntry, h]
          omega

end


inductive MCPType where
  | tool
  | resource
  | exclude
deriving DecidableEq, Repr

structure OperationDescriptor where
  method : String
  path : String
  tags : List String
deriving Repr

inductive PathPat where
  | all
  | exactPath (p : String)
  | underPath (p : String)
deriving Repr

def listPre : List Char → List Char → Bool
  | [], _ => true
  | _ :: _, [] => false
  | a :: as, b :: bs => a == b && listPre as bs

def patMatches : PathPat → String → Bool
  | .all, _ => true
  | .exactPath p, s => s == p
  | .underPath p, s => listPre p.data s.data

structure RouteMap where
  methods : Option (List String)
  pattern : PathPat
  tags : List String
  mcp_type : MCPType
deriving Repr

def ruleMatches (r : RouteMap) (op : OperationDescriptor) : Bool :=
  (match r.methods with
   | none => true
   | some ms => ms.contains op.method)
  && patMatches r.pattern op.path
  && r.tags.all (fun t => op.tags.contains t)

def routeStep (op : OperationDescriptor) (acc : MCPType) (r : RouteMap) : MCPType :=
  match ruleMatches r op with
  | true => r.mcp_type
  | false => acc

def routeFrom (op : OperationDescriptor) (acc : MCPType) (rules : List RouteMap) : MCPType :=
  rules.foldl (routeStep op) acc

def routeOutcome (rules : List RouteMap) (op : OperationDescriptor) : MCPType :=
  routeFrom op MCPType.tool rules

def lastMatchType (rules : List RouteMap) (op : OperationDescriptor) : MCPType :=
  match rules.reverse.find? (fun r => ruleMatches r op) with
  | some r => r.mcp_type
  | none => MCPType.tool

def excludeRule (t : String) : RouteMap :=
  { methods := none, pattern := .all, tags := [t], mcp_type := .exclude }

def catchAllExclude : RouteMap :=
  { methods := none, pattern := .all, tags := [], mcp_type := .exclude }

def includeRule (t : String) : RouteMap :=
  { methods := none, pattern := .all, tags := [t], mcp_type := .tool }

def searchResourceRule : RouteMap :=
  { methods := some ["GET"], pattern := .underPath "/search/", tags := [], mcp_type := .resource }

def analyticsResourceRule : RouteMap :=
  { methods := some ["GET"], pattern := .underPath "/analytics/", tags := [], mcp_type := .resource }

def create_route_maps (include_tags exclude_tags : List String)
    (automation_mode : Bool) : List RouteMap :=
  if automation_mode then
    [ catchAllExclude,
      { methods := some ["GET", "POST"], pattern := .exactPath "/clips", tags := [], mcp_type := .tool },
      { methods := some ["GET", "DELETE"], pattern := .exactPath "/videos", tags := [], mcp_type := .tool },
      { methods := some ["GET"], pattern := .exactPath "/search/channels", tags := [], mcp_type := .resource },
      { methods := some ["GET"], pattern := .exactPath "/search/categories", tags := [], mcp_type := .resource },
      { methods := some ["GET"], pattern := .exactPath "/streams", tags := [], mcp_type := .resource },
      { methods := some ["GET"], pattern := .exactPath "/users", tags := [], mcp_type := .resource },
      { methods := some ["GET"], pattern := .exactPath "/games", tags := [], mcp_type := .resource },
      { methods := some ["GET"], pattern := .exactPath "/games/top", tags := [], mcp_type := .resource } ]
  else
    (exclude_tags.map excludeRule)
      ++ (if include_tags.isEmpty then []
          else catchAllExclude :: include_tags.map includeRule)
      ++ [searchResourceRule, analyticsResourceRule]

theorem foldl_eq_lastMatch (op : OperationDescriptor) :
    ∀ (rules : List RouteMap) (acc : MCPType),
      rules.foldl (routeStep op) acc
        = match rules.reverse.find? (fun r => ruleMatches r op) with
          | some r => r.mcp_type
          | none => acc
  | [], acc => rfl
  | r :: rs, acc => by
      have ih := foldl_eq_lastMatch op rs (routeStep op acc r)
      simp only [List.foldl_cons] at ih ⊢
      rw [ih]
      simp only [List.reverse_cons, List.find?_append]
      cases hfind : rs.reverse.find? (fun r => ruleMatches r op) with
      | some x => simp [Option.or]
      | none =>
          cases hm : ruleMatches r op with
          | true => simp [Option.or, List.find?, hm, routeStep]
          | false => simp [Option.or, List.find?, hm, routeStep]

theorem routeOutcome_eq_lastMatchType (rules : List RouteMap) (op : OperationDescriptor) :
    routeOutcome rules op = lastMatchType rules op :=
  foldl_eq_lastMatch op rules MCPType.tool

theorem routeFrom_append (op : OperationDescriptor) (acc : MCPType)
    (l₁ l₂ : List RouteMap) :
    routeFrom op acc (l₁ ++ l₂) = routeFrom op (routeFrom op acc l₁) l₂ := by
  simp [routeFrom, List.foldl_append]

theorem routeFrom_no_match (op : OperationDescriptor) (acc : MCPType) :
    ∀ l : List RouteMap, (l.any fun r => ruleMatches r op) = false →
      routeFrom op acc l = acc
  | [], _ => rfl
  | r :: rs, h => by
      simp only [List.any_cons, Bool.or_eq_false_iff] at h
      simp only [routeFrom, List.foldl_cons, routeStep, h.1]
      exact routeFrom_no_match op acc rs h.2

theorem routeFrom_all_type (op : OperationDescriptor) (ty : MCPType) :
    ∀ (l : List RouteMap) (acc : MCPType), (∀ r ∈ l, r.mcp_type = ty) →
      routeFrom op acc l = acc ∨ routeFrom op acc l = ty
  | [], acc, _ => Or.inl rfl
  | r :: rs, acc, h => by
      have hr : r.mcp_type = ty := h r (by simp)
      have hrest : ∀ x ∈ rs, x.mcp_type = ty := fun x hx => h x (by simp [hx])
      simp only [routeFrom, List.foldl_cons]
      cases hm : ruleMatches r op with
      | true =>
          simp only [routeStep, hm, hr]
          rcases routeFrom_all_type op ty rs ty hrest with h1 | h1 <;>
            exact Or.inr (by simpa using h1)
      | false =>
          simp only [routeStep, hm]
          exact routeFrom_all_type op ty rs acc hrest

theorem routeFrom_match_all_type (op : OperationDescriptor) (ty : MCPType) :
    ∀ (l : List RouteMap) (acc : MCPType),
      (l.any fun r => ruleMatches r op) = true → (∀ r ∈ l, r.mcp_type = ty) →
      routeFrom op acc l = ty
  | [], acc, hm, _ => by simp at hm
  | r :: rs, acc, hm, h => by
      have hr : r.mcp_type = ty := h r (by simp)
      have hrest : ∀ x ∈ rs, x.mcp_type = ty := fun x hx => h x (by simp [hx])
      simp only [List.any_cons, Bool.or_eq_true] at hm
      simp only [routeFrom, List.foldl_cons]
      cases hany : (rs.any fun r => ruleMatches r op) with
      | true => exact routeFrom_match_all_type op ty rs _ hany hrest
      | false =>
          have hr' : ruleMatches r op = true := by
            rcases hm with hm | hm
            · exact hm
            · rw [hm] at hany; cases hany
          simp only [routeStep, hr', hr]
          exact routeFrom_no_match op ty rs hany

theorem routeFrom_ne (op : OperationDescriptor) :
    ∀ (l : List RouteMap) (acc : MCPType), routeFrom op acc l ≠ acc →
      ∃ r ∈ l, ruleMatches r op = true
  | [], acc, h => absurd rfl h
  | r :: rs, acc, h => by
      cases hm : ruleMatches r op with
      | true => exact ⟨r, by simp, hm⟩
      | false =>
          simp only [routeFrom, List.foldl_cons, routeStep, hm] at h
          rcases routeFrom_ne op rs acc h with ⟨x, hx, hmx⟩
          exact ⟨x, by simp [hx], hmx⟩

theorem catchAllExclude_matches (op : OperationDescriptor) :
    ruleMatches catchAllExclude op = true := rfl

theorem includeRule_matches (t : String) (op : OperationDescriptor)
    (h : t ∈ op.tags) : ruleMatches (includeRule t) op = true := by
  simp [ruleMatches, includeRule, patMatches, h]

theorem excludeRule_matches (t : String) (op : OperationDescriptor)
    (h : t ∈ op.tags) : ruleMatches (excludeRule t) op = true := by
  simp [ruleMatches, excludeRule, patMatches, h]

theorem includeRule_matches_iff (t : String) (op : OperationDescriptor) :
    ruleMatches (includeRule t) op = true ↔ t ∈ op.tags := by
  simp [ruleMatches, includeRule, patMatches]

/-- Under an include-only configuration, the per-tag include rules placed
after the catch-all exclude rule win for every operation carrying an
included tag, so such an operation is never excluded. -/
theorem include_overrides_catchall (inc : List String) (op : OperationDescriptor)
    (t : String) (ht : t ∈ inc) (htag : t ∈ op.tags) :
    routeOutcome (create_route_maps inc [] false) op ≠ MCPType.exclude := by
  have hne : inc.isEmpty = false := by
    cases inc with
    | nil => simp at ht
    | cons a l => rfl
  have hrules : create_route_maps inc [] false
      = ([catchAllExclude] ++ inc.map includeRule)
          ++ [searchResourceRule, analyticsResourceRule] := by
    simp [create_route_maps, hne]
  rw [hrules]
  unfold routeOutcome
  rw [routeFrom_append, routeFrom_append]
  have hany : ((inc.map includeRule).any fun r => ruleMatches r op) = true := by
    simp only [List.any_eq_true]
    exact ⟨includeRule t, List.mem_map_of_mem includeRule ht,
      includeRule_matches t op htag⟩
  have htool : ∀ r ∈ inc.map includeRule, r.mcp_type = MCPType.tool := by
    intro r hr
    rcases List.mem_map.mp hr with ⟨x, _, rfl⟩
    rfl
  rw [routeFrom_match_all_type op MCPType.tool (inc.map includeRule) _ hany htool]
  have hres : ∀ r ∈ [searchResourceRule, analyticsResourceRule],
      r.mcp_type = MCPType.resource := by
    intro r hr
    fin_cases hr <;> rfl
  rcases routeFrom_all_type op MCPType.resource
      [searchResourceRule, analyticsResourceRule] MCPType.tool hres with h | h <;>
    simp [h]

/-- Under the include-only policy every routed action carries an included tag. -/
theorem include_only_action_tagged (inc : List String) (op : OperationDescriptor)
    (hne : inc ≠ [])
    (h : routeOutcome (create_route_maps inc [] false) op = MCPType.tool) :
    ∃ t, t ∈ op.tags ∧ t ∈ inc := by
  have hne' : inc.isEmpty = false := by
    cases inc with
    | nil => exact absurd rfl hne
    | cons a l => rfl
  have hrules : create_route_maps inc [] false
      = ([catchAllExclude] ++ inc.map includeRule)
          ++ [searchResourceRule, analyticsResourceRule] := by
    simp [create_route_maps, hne']
  rw [hrules] at h
  unfold routeOutcome at h
  rw [routeFrom_append, routeFrom_append] at h
  have hcatch : routeFrom op MCPType.tool [catchAllExclude] = MCPType.exclude := rfl
  rw [hcatch] at h
  set m := routeFrom op MCPType.exclude (inc.map includeRule) with hm
  have hres : ∀ r ∈ [searchResourceRule, analyticsResourceRule],
      r.mcp_type = MCPType.resource := by
    intro r hr
    fin_cases hr <;> rfl
  rcases routeFrom_all_type op MCPType.resource
      [searchResourceRule, analyticsResourceRule] m hres with h2 | h2
  · rw [h2] at h
    have hmne : m ≠ MCPType.exclude := by rw [h]; intro hc; cases hc
    rw [hm] at hmne
    rcases routeFrom_ne op (inc.map includeRule) MCPType.exclude hmne with ⟨r, hrmem, hrmatch⟩
    rcases List.mem_map.mp hrmem with ⟨x, hx, rfl⟩
    exact ⟨x, (includeRule_matches_iff x op).mp hrmatch, hx⟩
  · rw [h2] at h
    cases h

/-- With exclude tags only (no include list), no routed action carries an
excluded tag. -/
theorem exclude_only_no_action (exc : List String) (op : OperationDescriptor)
    (h : routeOutcome (create_route_maps [] exc false) op = MCPType.tool) :
    ∀ t ∈ op.tags, t ∉ exc := by
  have hrules : create_route_maps [] exc false
      = exc.map excludeRule ++ [searchResourceRule, analyticsResourceRule] := by
    simp [create_route_maps]
  rw [hrules] at h
  unfold routeOutcome at h
  rw [routeFrom_append] at h
  set m := routeFrom op MCPType.tool (exc.map excludeRule) with hm
  have hres : ∀ r ∈ [searchResourceRule, analyticsResourceRule],
      r.mcp_type = MCPType.resource := by
    intro r hr
    fin_cases hr <;> rfl
  have hmtool : m = MCPType.tool := by
    rcases routeFrom_all_type op MCPType.resource
        [searchResourceRule, analyticsResourceRule] m hres with h2 | h2
    · rw [h2] at h; exact h
    · rw [h2] at h; cases h
  intro t htag htexc
  have hany : ((exc.map excludeRule).any fun r => ruleMatches r op) = true := by
    simp only [List.any_eq_true]
    exact ⟨excludeRule t, List.mem_map_of_mem excludeRule htexc,
      excludeRule_matches t op htag⟩
  have hexcl : ∀ r ∈ exc.map excludeRule, r.mcp_type = MCPType.exclude := by
    intro r hr
    rcases List.mem_map.mp hr with ⟨x, _, rfl⟩
    rfl
  have : m = MCPType.exclude :=
    routeFrom_match_all_type op MCPType.exclude (exc.map excludeRule) _ hany hexcl
  rw [hmtool] at this
  cases this

/-- Claim C1: for every operation descriptor and every routing-rule list
produced by _create_route_maps, the final outcome is the outcome of the last
rule in declaration order whose predicate matches the operation, defaulting
to action (TOOL) when no rule matches; in particular, under an include-only
configuration the catch-all exclude rule placed before the per-tag include
rules is overridden for every operation carrying an included tag. -/
theorem claim_routing_last_match_wins (inc exc : List String) (am : Bool)
    (op : OperationDescriptor) :
    routeOutcome (create_route_maps inc exc am) op
      = lastMatchType (create_route_maps inc exc am) op
    ∧ (∀ t, t ∈ inc → t ∈ op.tags →
        routeOutcome (create_route_maps inc [] false) op ≠ MCPType.exclude) :=
  ⟨routeOutcome_eq_lastMatchType _ op,
   fun t ht htag => include_overrides_catchall inc op t ht htag⟩

/-- Witness for claim C1 at a concrete configuration and operation. -/
theorem claim_routing_last_match_wins_witness :
    routeOutcome (create_route_maps ["clips"] [] false)
        { method := "GET", path := "/clips", tags := ["clips"] }
      ≠ MCPType.exclude :=
  (claim_routing_last_match_wins ["clips"] [] false
    { method := "GET", path := "/clips", tags := ["clips"] }).2
    "clips" (by decide) (by decide)

/-- Claim C2: for every include-only configuration with non-empty tag list,
every operation routed as an action carries at least one included tag (the
GET /search/* and /analytics/* overrides force operations to resource, not
action, so they cannot add wrongly-tagged actions). -/
theorem claim_include_only_actions_tagged (inc : List String)
    (op : OperationDescriptor) (hne : inc ≠ [])
    (h : routeOutcome (create_route_maps inc [] false) op = MCPType.tool) :
    ∃ t, t ∈ op.tags ∧ t ∈ inc :=
  include_only_action_tagged inc op hne h

/-- Witness for claim C2 at a concrete configuration and operation. -/
theorem claim_include_only_actions_tagged_witness :
    (["clips"] : List String) ≠ []
    ∧ routeOutcome (create_route_maps ["clips"] [] false)
        { method := "GET", path := "/clips", tags := ["clips", "videos"] }
      = MCPType.tool
    ∧ ∃ t, t ∈ ["clips", "videos"] ∧ t ∈ ["clips"] :=
  ⟨by decide, by decide,
   claim_include_only_actions_tagged ["clips"]
     { method := "GET", path := "/clips", tags := ["clips", "videos"] }
     (by decide) (by decide)⟩

/-- Claim C3 counterexample: under include tags channels together with
exclude tags moderation, an operation carrying both tags is routed as an
action even though it carries an excluded tag, refuting the claim for
configurations that also supply an include tag list. -/
theorem claim_exclude_tags_cex :
    routeOutcome (create_route_maps ["channels"] ["moderation"] false)
        { method := "POST", path := "/x", tags := ["moderation", "channels"] }
      = MCPType.tool
    ∧ "moderation" ∈ ["moderation", "channels"] :=
  ⟨rfl, by decide⟩

/-- Claim C3 amended: for every configuration whose exclude tag list is used
WITHOUT an include tag list (the include list empty), no operation routed as
an action carries an excluded tag.  When an include list is also supplied,
the later per-tag include rules override the earlier exclude rules, so an
operation carrying both an excluded and an included tag is exposed (see the
counterexample). -/
theorem claim_exclude_tags_amended (exc : List String) (op : OperationDescriptor)
    (h : routeOutcome (create_route_maps [] exc false) op = MCPType.tool) :
    ∀ t ∈ op.tags, t ∉ exc :=
  exclude_only_no_action exc op h

/-- Witness for amended claim C3 at a concrete configuration and operation. -/
theorem claim_exclude_tags_amended_witness :
    routeOutcome (create_route_maps [] ["moderation"] false)
        { method := "GET", path := "/users", tags := ["users"] }
      = MCPType.tool
    ∧ "users" ∉ ["moderation"] :=
  ⟨by decide,
   claim_exclude_tags_amended ["moderation"]
     { method := "GET", path := "/users", tags := ["users"] }
     (by decide) "users" (by decide)⟩

/-- Claim C4 counterexample: a document containing the deprecated token Bool
as a bare list element keeps that occurrence after _fix_schema_types (only
mapping entries under a type key are rewritten), so the output does not
contain zero occurrences of Bool as the claim states. -/
theorem claim_normalizer_cex :
    countTok "Bool" (Json.arr [Json.str "Bool"]) = 1
    ∧ countTok "Bool" (fix_schema_types (Json.arr [Json.str "Bool"])) = 1 :=
  ⟨rfl, rfl⟩

/-- Claim C4 amended: for every document, the output of _fix_schema_types
contains zero occurrences of Bool as the value of a type key of any mapping
at any depth; the count of the canonical token boolean grows by exactly the
number of such occurrences (hence is equal or greater); the count of the
token Bool shrinks by exactly that number, so occurrences of Bool elsewhere
(bare list elements, values of other keys) are preserved, contrary to the
original claim; and, position by position, the output agrees with the input
node-for-node — same scalar values, same array lengths, same mapping keys —
except exactly at the positions that are the value of a (type, Bool) entry,
where the output holds the string boolean: no other field is altered. -/
theorem claim_normalizer_amended (j : Json) (p : JPath) :
    countTypeBool (fix_schema_types j) = 0
    ∧ countTok "boolean" (fix_schema_types j) = countTok "boolean" j + countTypeBool j
    ∧ countTok "Bool" (fix_schema_types j) + countTypeBool j = countTok "Bool" j
    ∧ (subAt (fix_schema_types j) p).map headView
      = (match typeBoolValuePos j p with
         | true => some (HeadView.vstr "boolean")
         | false => (subAt j p).map headView) :=
  ⟨countTypeBool_fix j, countTok_boolean_fix j, countTok_Bool_fix j,
   headView_subAt_fix p j⟩

/-- Claim C9: the Document Normalizer is idempotent — applying
_fix_schema_types twice yields exactly the same output as applying it once. -/
theorem claim_normalizer_idempotent (j : Json) :
    fix_schema_types (fix_schema_types j) = fix_schema_types j :=
  fix_schema_types_noop (fix_schema_types j) (countTypeBool_fix j)


/-- A registered tool as far as the transformation pipeline observes it:
exposed name, description, metadata, argument list (name and description
per argument), a disabled flag, and the identifier of the underlying
upstream invocation behaviour (which Tool.from_tool preserves). -/
structure Tool where
  name : String
  description : String
  meta : Json
  args : List (String × String)
  disabled : Bool
  opId : String
deriving Repr

/-- One per-argument rewrite from a transformation table entry (the
arguments sub-dict, lines 215-224 etc.): optional new name and optional new
description.  The hide / default / default_factory keys read on lines
358-363 are never set by any entry of this table, so they are omitted. -/
structure ArgTransform where
  newName : Option String
  newDescription : Option String
deriving Repr

/-- One transformation-table entry (a transform_config dict): optional new
name, optional new description, metadata, and per-argument rewrites. -/
structure RewriteSpec where
  name : Option String
  description : Option String
  meta : Json
  arguments : List (String × ArgTransform)
deriving Repr

/-- Rewrite of one (argument name, argument description) pair under the
per-argument transforms (ArgTransform semantics of Tool.from_tool as the
spec describes them: rename and redescribe the listed parameters). -/
def apply_arg_transform (a : String × String) (ts : List (String × ArgTransform)) :
    String × String :=
  match ts.lookup a.1 with
  | none => a
  | some t => (t.newName.getD a.1, t.newDescription.getD a.2)

/-- Modelled from the spec: Tool.from_tool of the external framework —
construct a replacement callable with the same underlying invocation
behaviour, exposed under the new name, description and metadata, with each
named parameter renamed or redescribed per its rewrite.  The replacement is
enabled.  Missing name falls back to the original name (the
transform_config.get fallback on line 370); missing description keeps the
original. -/
def tool_from_tool (orig : Tool) (spec : RewriteSpec) : Tool :=
  { name := spec.name.getD orig.name
    description := spec.description.getD orig.description
    meta := spec.meta
    args := orig.args.map (fun a => apply_arg_transform a spec.arguments)
    disabled := false
    opId := orig.opId }

/-- Modelled from the spec: registry lookup by exposed name (the CallableRegistry
mapping; get_tools also reports disabled tools, which stay present for
introspection). -/
def find_tool (reg : List Tool) (n : String) : Option Tool :=
  reg.find? (fun t => t.name == n)

/-- Modelled from the spec: add_tool registers a callable under its name;
on name collision the later registration wins (the entry is replaced). -/
def add_tool (reg : List Tool) (t : Tool) : List Tool :=
  match reg.any (fun u => u.name == t.name) with
  | true => reg.map (fun u => if u.name == t.name then t else u)
  | false => reg ++ [t]

/-- Modelled from the spec: original_tool.disable() — mark the registry
entry of that name disabled (still present, not invocable). -/
def disable_tool (reg : List Tool) (n : String) : List Tool :=
  reg.map (fun u => if u.name == n then { u with disabled := true } else u)

/-- Outcome of invoking a registry entry by name. -/
inductive InvokeResult where
  | ok (opId : String)
  | notFound
  | disabledTool
deriving DecidableEq, Repr

/-- Modelled from the spec: invocation resolves the name in the registry and
fails with Disabled for a disabled entry, otherwise runs the underlying
behaviour. -/
def invoke_tool (reg : List Tool) (n : String) : InvokeResult :=
  match find_tool reg n with
  | none => .notFound
  | some t => match t.disabled with
      | true => .disabledTool
      | false => .ok t.opId

/-- Embedding of one iteration of the transformation loop in
TwitchMCPServer.create_server (src/mcp_twitch_server.py lines 341-385): if
the tool name is present in the registry, build the transformed tool, add
it, and disable the original object; otherwise do nothing — the source has
no else-branch on the membership test, so an absent name is skipped without
any output.  The returned string list is what the iteration prints; the
warning print on line 385 lives in the except-branch, which the membership
guard makes unreachable for an absent name. -/
def process_entry (reg : List Tool) (e : String × RewriteSpec) :
    List Tool × List String :=
  match find_tool reg e.1 with
  | none => (reg, [])
  | some orig =>
      let t := tool_from_tool orig e.2
      let reg1 := add_tool reg t
      -- original_tool.disable() mutates the object fetched BEFORE add_tool;
      -- when the new name equals the old one, add_tool has already replaced
      -- that registry slot with the new tool, and the disable call touches
      -- an object no longer registered.
      let reg2 := match t.name == e.1 with
                  | true => reg1
                  | false => disable_tool reg1 e.1
      (reg2, ["✅ Transformed tool: " ++ e.1 ++ " -> " ++ t.name])

/-- The whole transformation loop (for tool_name, transform_config in
transformations.items(), lines 341-385), processing entries in order and
collecting the printed lines. -/
def apply_transformations : List Tool → List (String × RewriteSpec) →
    List Tool × List String
  | reg, [] => (reg, [])
  | reg, e :: es =>
      let p := process_entry reg e
      let q := apply_transformations p.1 es
      (q.1, p.2 ++ q.2)

theorem find_tool_map_name_preserving (reg : List Tool) (f : Tool → Tool)
    (hf : ∀ u, (f u).name = u.name) (m : String) :
    find_tool (reg.map f) m = (find_tool reg m).map f := by
  unfold find_tool
  rw [List.find?_map]
  have hpf : ((fun t : Tool => t.name == m) ∘ f) = (fun t : Tool => t.name == m) := by
    funext u
    simp only [Function.comp]
    rw [hf u]
  rw [hpf]

theorem find_tool_add_self (reg : List Tool) (t : Tool) :
    find_tool (add_tool reg t) t.name = some t := by
  unfold add_tool
  cases hany : reg.any (fun u => u.name == t.name) with
  | true =>
      unfold find_tool
      rw [List.find?_map]
      have hpf : ((fun u : Tool => u.name == t.name)
            ∘ (fun u : Tool => if u.name == t.name then t else u))
          = fun u : Tool => u.name == t.name := by
        funext u
        simp only [Function.comp]
        by_cases h : u.name = t.name <;> simp [h]
      rw [hpf]
      rcases List.any_eq_true.mp hany with ⟨x, hx, hpx⟩
      have hsome : (reg.find? fun u : Tool => u.name == t.name).isSome :=
        List.find?_isSome.mpr ⟨x, hx, hpx⟩
      rcases Option.isSome_iff_exists.mp hsome with ⟨u, hu⟩
      rw [hu]
      have hpu : (u.name == t.name) = true :=
        @List.find?_some Tool (fun u : Tool => u.name == t.name) u reg hu
      have hun : u.name = t.name := by simpa using hpu
      simp [Option.map, hun]
  | false =>
      have hnone : reg.find? (fun u : Tool => u.name == t.name) = none := by
        rw [List.find?_eq_none]
        intro x hx hpx
        have : reg.any (fun u : Tool => u.name == t.name) = true :=
          List.any_eq_true.mpr ⟨x, hx, hpx⟩
        rw [hany] at this
        cases this
      unfold find_tool
      rw [List.find?_append, hnone]
      simp [List.find?]

theorem find_tool_add_other (reg : List Tool) (t : Tool) (n : String)
    (hn : n ≠ t.name) :
    find_tool (add_tool reg t) n = find_tool reg n := by
  unfold add_tool
  cases hany : reg.any (fun u => u.name == t.name) with
  | true =>
      unfold find_tool
      rw [List.find?_map]
      have hpf : ((fun u : Tool => u.name == n)
            ∘ (fun u : Tool => if u.name == t.name then t else u))
          = fun u : Tool => u.name == n := by
        funext u
        simp only [Function.comp]
        by_cases h : u.name = t.name
        · have h1 : (t.name == n) = false := by
            apply beq_false_of_ne
            intro hc
            exact hn hc.symm
          have h2 : (u.name == n) = false := by
            apply beq_false_of_ne
            rw [h]
            intro hc
            exact hn hc.symm
          simp [h, h1, h2]
        · simp [h]
      rw [hpf]
      cases hfind : reg.find? (fun u : Tool => u.name == n) with
      | none => rfl
      | some u =>
          have hpu : (u.name == n) = true :=
            @List.find?_some Tool (fun u : Tool => u.name == n) u reg hfind
          have hun : u.name = n := by simpa using hpu
          have hne2 : u.name ≠ t.name := by
            rw [hun]
            exact hn
          simp [Option.map, hne2]
  | false =>
      unfold find_tool
      rw [List.find?_append]
      have h1 : (t.name == n) = false := by
        apply beq_false_of_ne
        intro hc
        exact hn hc.symm
      cases hfind : reg.find? (fun u : Tool => u.name == n) with
      | some u => rfl
      | none => simp [List.find?, h1]

theorem find_tool_disable (reg : List Tool) (n m : String) :
    find_tool (disable_tool reg n) m
      = (find_tool reg m).map
          (fun u => if u.name == n then { u with disabled := true } else u) :=
  find_tool_map_name_preserving reg _
    (fun u => by by_cases h : u.name = n <;> simp [h]) m

theorem claim_rewrite_spec_applied (reg : List Tool) (e : String × RewriteSpec)
    (orig : Tool) (nn : String)
    (hfind : find_tool reg e.1 = some orig)
    (_hact : orig.disabled = false)
    (hname : e.2.name = some nn)
    (hne : nn ≠ e.1) :
    find_tool (process_entry reg e).1 nn = some (tool_from_tool orig e.2)
    ∧ (tool_from_tool orig e.2).description = e.2.description.getD orig.description
    ∧ (tool_from_tool orig e.2).meta = e.2.meta
    ∧ (tool_from_tool orig e.2).args
        = orig.args.map (fun a => apply_arg_transform a e.2.arguments)
    ∧ invoke_tool (process_entry reg e).1 nn = .ok orig.opId
    ∧ find_tool (process_entry reg e).1 e.1 = some { orig with disabled := true }
    ∧ invoke_tool (process_entry reg e).1 e.1 = .disabledTool := by
  have horigname : orig.name = e.1 := by
    have hpu : (orig.name == e.1) = true :=
      @List.find?_some Tool (fun u : Tool => u.name == e.1) orig reg hfind
    simpa using hpu
  have htname : (tool_from_tool orig e.2).name = nn := by
    simp [tool_from_tool, hname]
  have hbeq : ((tool_from_tool orig e.2).name == e.1) = false := by
    rw [htname]
    exact beq_false_of_ne hne
  have hreg : (process_entry reg e).1
      = disable_tool (add_tool reg (tool_from_tool orig e.2)) e.1 := by
    simp only [process_entry, hfind, hbeq]
  have hfind_new : find_tool (process_entry reg e).1 nn
      = some (tool_from_tool orig e.2) := by
    rw [hreg, find_tool_disable]
    have h1 : find_tool (add_tool reg (tool_from_tool orig e.2)) nn
        = some (tool_from_tool orig e.2) := by
      have := find_tool_add_self reg (tool_from_tool orig e.2)
      rwa [htname] at this
    rw [h1]
    simp [Option.map, htname, beq_false_of_ne hne]
  have hfind_old : find_tool (process_entry reg e).1 e.1
      = some { orig with disabled := true } := by
    rw [hreg, find_tool_disable]
    have h1 : find_tool (add_tool reg (tool_from_tool orig e.2)) e.1
        = find_tool reg e.1 := by
      apply find_tool_add_other
      rw [htname]
      intro hc
      exact hne hc.symm
    rw [h1, hfind]
    simp [Option.map, horigname]
  refine ⟨hfind_new, rfl, rfl, rfl, ?_, hfind_old, ?_⟩
  · rw [invoke_tool, hfind_new]
    rfl
  · rw [invoke_tool, hfind_old]

/-- The get_users entry of the transformation table (src/mcp_twitch_server.py
lines 207-225).  The parenthesised quoted example lists inside two argument
descriptions of the Python source are abridged here; everything else is
verbatim. -/
def get_users_transform : String × RewriteSpec :=
  ("get_users",
   { name := some "find_twitch_users"
     description := some "Найти пользователей Twitch по логину или ID. Можно искать несколько пользователей одновременно."
     meta := Json.obj [("category", Json.str "users"), ("difficulty", Json.str "easy"),
       ("examples", Json.arr [Json.str "ninja", Json.str "pokimane", Json.str "shroud"])]
     arguments :=
       [("login", { newName := some "usernames",
                    newDescription := some "Список логинов пользователей Twitch" }),
        ("id", { newName := some "user_ids",
                 newDescription := some "Список ID пользователей Twitch" })] })

/-- The get_streams entry of the transformation table (lines 228-250). -/
def get_streams_transform : String × RewriteSpec :=
  ("get_streams",
   { name := some "get_live_streams"
     description := some "Получить информацию о текущих живых стримах. Можно фильтровать по пользователям, играм или языку."
     meta := Json.obj [("category", Json.str "streams"), ("difficulty", Json.str "easy"),
       ("data_freshness", Json.str "real-time")]
     arguments :=
       [("user_login", { newName := some "streamers",
                         newDescription := some "Список логинов стримеров для проверки" }),
        ("game_id", { newName := some "game_ids",
                      newDescription := some "ID игр для фильтрации стримов" }),
        ("language", { newName := some "languages",
                       newDescription := some "Языки стримов" })] })

/-- The search_channels entry of the transformation table (lines 253-270);
its query argument is redescribed without being renamed. -/
def search_channels_transform : String × RewriteSpec :=
  ("search_channels",
   { name := some "search_twitch_channels"
     description := some "Поиск каналов Twitch по названию или описанию. Можно искать только среди активных стримеров."
     meta := Json.obj [("category", Json.str "search"), ("difficulty", Json.str "easy"),
       ("use_cases", Json.arr [Json.str "discovery", Json.str "research"])]
     arguments :=
       [("query", { newName := none,
                    newDescription := some "Поисковый запрос (название канала или ключевые слова из описания)" }),
        ("live_only", { newName := some "only_live",
                        newDescription := some "Искать только среди стримеров, которые сейчас в эфире" })] })

/-- The get_clips entry added in automation mode (lines 276-284). -/
def get_clips_transform : String × RewriteSpec :=
  ("get_clips",
   { name := some "get_trending_clips"
     description := some "🎬 Получить популярные клипы для автоконвейера"
     meta := Json.obj [("category", Json.str "clips_automation"),
       ("automation_ready", Json.bool true), ("n8n_friendly", Json.bool true)]
     arguments := [] })

/-- The get_top_games entry added in automation mode (lines 285-293). -/
def get_top_games_transform : String × RewriteSpec :=
  ("get_top_games",
   { name := some "analyze_trending_categories"
     description := some "📊 Анализ топовых игр и категорий для определения трендов"
     meta := Json.obj [("category", Json.str "trend_analysis"),
       ("automation_ready", Json.bool true), ("data_freshness", Json.str "real-time")]
     arguments := [] })

/-- Embedding of TwitchMCPServer._create_tool_transformations (lines
197-297): the three universal entries, in insertion order, plus the two
automation entries merged in by dict.update when automation_mode is set. -/
def create_tool_transformations (automation_mode : Bool) :
    List (String × RewriteSpec) :=
  [get_users_transform, get_streams_transform, search_channels_transform]
    ++ (match automation_mode with
        | true => [get_clips_transform, get_top_games_transform]
        | false => [])

/-- A registry entry standing for the generated get_users tool. -/
def get_users_tool : Tool :=
  { name := "get_users"
    description := "Gets information about one or more users."
    meta := Json.null
    args := [("login", "User login name."), ("id", "User ID.")]
    disabled := false
    opId := "op_get_users" }

/-- A registry entry standing for the generated get_streams tool. -/
def get_streams_tool : Tool :=
  { name := "get_streams"
    description := "Gets a list of all streams."
    meta := Json.null
    args := [("user_login", "User login name."), ("game_id", "Game ID."),
      ("language", "Stream language.")]
    disabled := false
    opId := "op_get_streams" }

theorem claim_rewrite_spec_applied_witness :
    find_tool [get_users_tool] "get_users" = some get_users_tool
    ∧ invoke_tool (process_entry [get_users_tool] get_users_transform).1
        "find_twitch_users" = InvokeResult.ok "op_get_users"
    ∧ invoke_tool (process_entry [get_users_tool] get_users_transform).1
        "get_users" = InvokeResult.disabledTool := by
  have h := claim_rewrite_spec_applied [get_users_tool] get_users_transform
    get_users_tool "find_twitch_users" rfl rfl rfl (by decide)
  exact ⟨rfl, h.2.2.2.2.1, h.2.2.2.2.2.2⟩

theorem claim_missing_op_cex :
    find_tool [get_streams_tool] (get_users_transform).1 = none
    ∧ apply_transformations [get_streams_tool] [get_users_transform]
      = ([get_streams_tool], []) :=
  ⟨rfl, rfl⟩

theorem claim_missing_op_amended (reg : List Tool) (e : String × RewriteSpec)
    (rest : List (String × RewriteSpec)) (h : find_tool reg e.1 = none) :
    apply_transformations reg (e :: rest) = apply_transformations reg rest := by
  simp [apply_transformations, process_entry, h]

theorem claim_missing_op_amended_witness :
    find_tool [get_streams_tool] (get_users_transform).1 = none
    ∧ apply_transformations [get_streams_tool]
        [get_users_transform, get_streams_transform]
      = apply_transformations [get_streams_tool] [get_streams_transform] :=
  ⟨rfl, claim_missing_op_amended [get_streams_tool] get_users_transform
    [get_streams_transform] rfl⟩


/-- An upstream HTTP response as the handlers observe it: status code and
parsed JSON body.  The handlers are verified as functions of the responses
their sequential upstream calls return. -/
structure Response where
  status : Nat
  body : Json
deriving Repr

/-- Python obj[key] on a parsed JSON value: returns the mapping value or
raises (KeyError for a missing key, TypeError when the value is not a
mapping); exceptions are modelled as Except.error with a message. -/
def Json.index (j : Json) (k : String) : Except String Json :=
  match j with
  | .obj fs => match fs.lookup k with
      | some v => Except.ok v
      | none => Except.error ("KeyError: " ++ k)
  | _ => Except.error "TypeError: object is not subscriptable"

/-- Python obj.get(key, default) on a parsed JSON value (raises
AttributeError when the value is not a mapping). -/
def Json.get (j : Json) (k : String) (d : Json) : Except String Json :=
  match j with
  | .obj fs => Except.ok (match fs.lookup k with | some v => v | none => d)
  | _ => Except.error "AttributeError: get"

/-- A JSON value used where Python needs a list (raises TypeError otherwise). -/
def Json.asArr : Json → Except String (List Json)
  | .arr xs => Except.ok xs
  | _ => Except.error "TypeError: not a list"

/-- A JSON value used where Python needs a number (a non-number raises
TypeError at the first arithmetic comparison). -/
def Json.asInt : Json → Except String Int
  | .num n => Except.ok n
  | _ => Except.error "TypeError: not a number"

/-- A JSON value used where Python calls string methods on it (raises
AttributeError otherwise). -/
def Json.asStr : Json → Except String String
  | .str s => Except.ok s
  | _ => Except.error "AttributeError: not a string"

/-- Pure lookup of a mapping key (none for a missing key or a non-mapping),
used to state properties about handler results. -/
def Json.lookup? : Json → String → Option Json
  | .obj fs, k => fs.lookup k
  | _, _ => none

/-- Follower-count band of the viral score (lines 468-473): more than
100000 followers contribute 40 points, more than 10000 contribute 25. -/
def followerPoints (fc : Int) : Int :=
  if fc > 100000 then 40 else if fc > 10000 then 25 else 0

/-- Factor strings recorded for the follower band (lines 468-473). -/
def followerFactors (fc : Int) : List String :=
  if fc > 100000 then ["🌟 High follower count"]
  else if fc > 10000 then ["📈 Good follower count"] else []

/-- Viewer-count band while live (lines 480-485): more than 10000 viewers
contribute 30 points, more than 1000 contribute 20. -/
def viewerPoints (vc : Int) : Int :=
  if vc > 10000 then 30 else if vc > 1000 then 20 else 0

/-- Factor strings recorded for the viewer band (lines 480-485). -/
def viewerFactors (vc : Int) : List String :=
  if vc > 10000 then ["🔴 High viewer count LIVE"]
  else if vc > 1000 then ["📺 Good viewer count"] else []

/-- Channel-popularity bonus (lines 491-494): a total view count above
50000000 contributes 20 points. -/
def creatorPoints (v : Int) : Int := if v > 50000000 then 20 else 0

/-- Factor string recorded for the channel-popularity bonus. -/
def creatorFactors (v : Int) : List String :=
  if v > 50000000 then ["🚀 Established creator"] else []

/-- Recommendation string by score band (lines 497-504). -/
def recommendationOf (s : Int) : String :=
  if s ≥ 70 then "🔥 EXTREMELY HIGH - Create clips IMMEDIATELY!"
  else if s ≥ 50 then "⭐ HIGH - Great for viral content"
  else if s ≥ 30 then "📈 MEDIUM - Good potential"
  else "💤 LOW - Consider other streamers"

/-- automation_priority by score band (line 513). -/
def priorityOf (s : Int) : String :=
  if s ≥ 50 then "high" else if s ≥ 30 then "medium" else "low"

/-- The body of the analyze_viral_potential handler
(src/mcp_twitch_server.py lines 436-524), written over the three upstream
responses its sequential calls return (GET /users, GET /streams,
GET /channels/followers).  Except.error models a raised Python exception;
the enclosing handler catches it. -/
def analyze_viral_potential_body (streamer_username : String)
    (userResp streamResp followersResp : Response) : Except String Json := do
  match userResp.status == 200 with
  | false =>
      Except.ok (Json.obj
        [("error", Json.str ("Streamer " ++ streamer_username ++ " not found")),
         ("viral_score", Json.num 0)])
  | true => do
    let dataField ← userResp.body.index "data"
    let userArr ← dataField.asArr
    let userData ← match userArr.head? with
      | some u => Except.ok u
      | none => Except.error "IndexError: list index out of range"
    let _userId ← userData.index "id"
    let streamField ← streamResp.body.index "data"
    let streamData ← streamField.asArr
    -- follower_count defaults to 0; the inner try swallows a non-mapping
    -- body (the .get call raises before assignment), while a non-numeric
    -- total raises later at the first comparison, outside the inner try
    let followerCount ← match followersResp.status == 200 with
      | false => Except.ok (0 : Int)
      | true =>
          match followersResp.body with
          | .obj fs =>
              (match fs.lookup "total" with
               | some v => v.asInt
               | none => Except.ok (0 : Int))
          | _ => Except.ok (0 : Int)
    let liveData ← match streamData with
      | [] => Except.ok ((0 : Int), ([] : List String), ([] : List (String × Json)))
      | s :: _ => do
          let vcJ ← s.get "viewer_count" (Json.num 0)
          let vc ← vcJ.asInt
          let game ← s.get "game_name" (Json.str "Unknown")
          let title ← s.get "title" (Json.str "")
          Except.ok (viewerPoints vc + 10,
            viewerFactors vc ++ ["⚡ Currently streaming"],
            [("current_viewers", vcJ), ("current_game", game), ("stream_title", title)])
    let isLive := !streamData.isEmpty
    let viewJ ← userData.get "view_count" (Json.num 0)
    let viewCount ← viewJ.asInt
    let score := followerPoints followerCount + liveData.1 + creatorPoints viewCount
    let factors := followerFactors followerCount ++ liveData.2.1 ++ creatorFactors viewCount
    let displayName ← userData.index "display_name"
    Except.ok (Json.obj
      ([("streamer", displayName),
        ("viral_score", Json.num score),
        ("recommendation", Json.str (recommendationOf score)),
        ("factors", Json.arr (factors.map Json.str)),
        ("is_live", Json.bool isLive),
        ("follower_count", Json.num followerCount),
        ("automation_priority", Json.str (priorityOf score))]
       ++ (match isLive with | true => liveData.2.2 | false => [])))

/-- The analyze_viral_potential handler: its whole body is wrapped in
try/except Exception, and any exception is returned as the soft payload
with the exception text and viral_score 0 (lines 526-528). -/
def analyze_viral_potential (streamer_username : String)
    (userResp streamResp followersResp : Response) : Json :=
  match analyze_viral_potential_body streamer_username userResp streamResp followersResp with
  | .ok v => v
  | .error e => Json.obj [("error", Json.str e), ("viral_score", Json.num 0)]



/-- Processing of one clip inside get_automation_ready_clips (lines
568-607): clips below min_view_count are dropped; otherwise the
automation record is built, keyed fields raising KeyError when absent.
Returns the automation_score alongside the record for the later sort. -/
def process_clip (min_view_count : Int) (clip : Json) :
    Except String (Option (Int × Json)) := do
  let vJ ← clip.get "view_count" (Json.num 0)
  let v ← vJ.asInt
  match decide (v < min_view_count) with
  | true => Except.ok none
  | false => do
    let cid ← clip.index "id"
    let title ← clip.index "title"
    let url ← clip.index "url"
    let embed ← clip.index "embed_url"
    let thumb ← clip.index "thumbnail_url"
    let vc ← clip.index "view_count"
    let dur ← clip.index "duration"
    let durI ← dur.asInt
    let created ← clip.index "created_at"
    let bname ← clip.index "broadcaster_name"
    let bid ← clip.index "broadcaster_id"
    let game ← clip.get "game_name" (Json.str "Unknown")
    let gameId ← clip.get "game_id" Json.null
    let tagGameJ ← clip.get "game_name" (Json.str "gaming")
    let tagGame ← tagGameJ.asStr
    let score := min 100 (Int.tdiv v 100)
    Except.ok (some (score, Json.obj
      [("clip_id", cid), ("title", title), ("url", url), ("embed_url", embed),
       ("thumbnail_url", thumb), ("view_count", vc), ("duration", dur),
       ("created_at", created), ("broadcaster_name", bname),
       ("broadcaster_id", bid), ("game_name", game), ("game_id", gameId),
       ("automation_score", Json.num score),
       ("download_ready", Json.bool true),
       ("processing_priority",
        Json.str (if v > 5000 then "high" else "medium")),
       ("auto_tags", Json.arr
         [Json.str ((tagGame.toLower).replace " " "_"),
          Json.str (if v > 10000 then "viral" else "trending"),
          Json.str ("duration_" ++ toString durI ++ "s")])]))

/-- The clip-processing loop (for clip in clips_data, lines 568-607),
in order, stopping at the first raised exception as Python does. -/
def process_clips (min_view_count : Int) : List Json → Except String (List (Int × Json))
  | [] => Except.ok []
  | c :: cs => do
      let r ← process_clip min_view_count c
      let rest ← process_clips min_view_count cs
      Except.ok (match r with | none => rest | some p => p :: rest)

/-- Stable insertion of one scored clip into a descending-sorted list: the
element goes after every strictly higher score and before equal ones. -/
def insertScoredDesc (c : Int × Json) : List (Int × Json) → List (Int × Json)
  | [] => [c]
  | x :: xs => match decide (c.1 < x.1) with
      | true => x :: insertScoredDesc c xs
      | false => c :: x :: xs

/-- automation_clips.sort(key=automation_score, reverse=True) of line 610:
a stable descending sort by score, the observational behaviour of the
Python stable sort with reverse=True. -/
def sortScoredDesc : List (Int × Json) → List (Int × Json)
  | [] => []
  | c :: cs => insertScoredDesc c (sortScoredDesc cs)

/-- None or a string, as placed into filters_applied. -/
def optStr : Option String → Json
  | none => Json.null
  | some s => Json.str s

/-- The part of get_automation_ready_clips (lines 536-626) that does not
depend on game_name or hours_back: the optional streamer lookup, the clips
call status check (ok none encodes the early Failed-to-get-clips return),
and clip filtering, building and sorting.  Returns the top-ten clip list
and the total and kept counts. -/
def get_automation_ready_clips_core (streamer_username : Option String)
    (min_view_count : Int) (userResp clipsResp : Response) :
    Except String (Option (List Json × Nat × Nat)) := do
  let _broadcasterId ← match streamer_username with
    | none => Except.ok (none : Option Json)
    | some _ =>
        match userResp.status == 200 with
        | false => Except.ok none
        | true => do
            let d ← userResp.body.index "data"
            let arr ← d.asArr
            match arr with
            | [] => Except.ok none
            | u :: _ => do
                let i ← u.index "id"
                Except.ok (some i)
  match clipsResp.status == 200 with
  | false => Except.ok none
  | true => do
      let dataField ← clipsResp.body.index "data"
      let clipsData ← dataField.asArr
      let automationClips ← process_clips min_view_count clipsData
      let sorted := sortScoredDesc automationClips
      Except.ok (some ((sorted.map Prod.snd).take 10,
        clipsData.length, automationClips.length))

/-- The get_automation_ready_clips handler (src/mcp_twitch_server.py lines
536-630) over the two upstream responses (GET /users when a streamer
username is given, GET /clips).  Its body is wrapped in try/except and any
exception becomes the soft payload with empty clips (lines 628-630);
a non-200 clips response becomes the Failed-to-get-clips soft payload
(lines 561-562); hours_back and game_name are used only inside the echoed
filters_applied field. -/
def get_automation_ready_clips (streamer_username : Option String)
    (game_name : Option String) (hours_back : Int) (min_view_count : Int)
    (userResp clipsResp : Response) : Json :=
  match get_automation_ready_clips_core streamer_username min_view_count
      userResp clipsResp with
  | .error e => Json.obj [("error", Json.str e), ("clips", Json.arr [])]
  | .ok none => Json.obj [("error", Json.str "Failed to get clips"), ("clips", Json.arr [])]
  | .ok (some (clipsTop, total, ready)) =>
      Json.obj
        [("clips", Json.arr clipsTop),
         ("total_found", Json.num total),
         ("automation_ready", Json.num ready),
         ("filters_applied", Json.obj
           [("streamer", optStr streamer_username),
            ("game", optStr game_name),
            ("min_views", Json.num min_view_count),
            ("hours_back", Json.num hours_back)]),
         ("n8n_workflow_ready", Json.bool true)]



/-- Substring test over the character lists of two strings (needle occurs
somewhere in hay). -/
def strHasSub (hay needle : String) : Bool :=
  (List.range (hay.data.length + 1)).any (fun i => listPre needle.data (hay.data.drop i))

theorem recommendation_contains_immediately (s : Int) (h : 70 ≤ s) :
    strHasSub (recommendationOf s) "IMMEDIATELY" = true := by
  unfold recommendationOf
  rw [if_pos h]
  decide

/-- A 200 GET /users response whose single user record carries the given
display name and total view count. -/
def viral_user_response (dn : String) (v : Int) : Response :=
  ⟨200, Json.obj [("data", Json.arr [Json.obj [("id", Json.str "u1"),
    ("display_name", Json.str dn), ("view_count", Json.num v)]])]⟩

/-- A 200 GET /streams response reporting the subject live with 12000
viewers. -/
def viral_live_stream_response (g ti : String) : Response :=
  ⟨200, Json.obj [("data", Json.arr [Json.obj [("viewer_count", Json.num 12000),
    ("game_name", Json.str g), ("title", Json.str ti)]])]⟩

/-- A 200 GET /streams response reporting the subject not live. -/
def viral_no_stream_response : Response :=
  ⟨200, Json.obj [("data", Json.arr [])]⟩

/-- A 200 GET /channels/followers response with the given total. -/
def followers_response (n : Int) : Response :=
  ⟨200, Json.obj [("total", Json.num n)]⟩

/-- Claim C8: with the upstream reporting follower count 150000 and the
subject live with 12000 viewers, the handler returns a viral score of at
least 70 and a recommendation containing IMMEDIATELY; with follower count
500, a small total view count and the subject not live, the score is below
30. -/
theorem claim_viral_score_scenarios (u1 u2 dn dn2 g ti : String) (v v2 : Int)
    (hv2 : v2 ≤ 50000000) :
    (∃ sc : Int,
      (analyze_viral_potential u1 (viral_user_response dn v)
          (viral_live_stream_response g ti)
          (followers_response 150000)).lookup? "viral_score"
        = some (Json.num sc)
      ∧ 70 ≤ sc
      ∧ (analyze_viral_potential u1 (viral_user_response dn v)
          (viral_live_stream_response g ti)
          (followers_response 150000)).lookup? "recommendation"
        = some (Json.str (recommendationOf sc))
      ∧ strHasSub (recommendationOf sc) "IMMEDIATELY" = true)
    ∧ (∃ sc2 : Int,
      (analyze_viral_potential u2 (viral_user_response dn2 v2)
          viral_no_stream_response
          (followers_response 500)).lookup? "viral_score"
        = some (Json.num sc2)
      ∧ sc2 < 30) := by
  have hc0 : (0 : Int) ≤ creatorPoints v := by
    unfold creatorPoints
    split <;> norm_num
  have hsc : 70 ≤ followerPoints 150000 + (viewerPoints 12000 + 10) + creatorPoints v := by
    rw [show followerPoints 150000 = 40 from rfl,
      show viewerPoints 12000 = 30 from rfl]
    omega
  have hz : creatorPoints v2 = 0 := by
    unfold creatorPoints
    rw [if_neg (not_lt.mpr hv2)]
  refine ⟨⟨followerPoints 150000 + (viewerPoints 12000 + 10) + creatorPoints v,
    rfl, hsc, rfl, recommendation_contains_immediately _ hsc⟩,
    ⟨followerPoints 500 + 0 + creatorPoints v2, rfl, ?_⟩⟩
  rw [show followerPoints 500 = 0 from rfl, hz]
  norm_num

@[simp] theorem except_bind_error {α β : Type} (e : String) (f : α → Except String β) :
    (Except.error e : Except String α) >>= f = Except.error e := rfl

@[simp] theorem except_bind_ok {α β : Type} (a : α) (f : α → Except String β) :
    (Except.ok a : Except String α) >>= f = f a := rfl

/-- Witness for claim C8 at concrete display names, games and view counts. -/
theorem claim_viral_score_scenarios_witness :
    (∃ sc : Int,
      (analyze_viral_potential "a" (viral_user_response "Ninja" 0)
          (viral_live_stream_response "Fortnite" "title")
          (followers_response 150000)).lookup? "viral_score"
        = some (Json.num sc)
      ∧ 70 ≤ sc
      ∧ (analyze_viral_potential "a" (viral_user_response "Ninja" 0)
          (viral_live_stream_response "Fortnite" "title")
          (followers_response 150000)).lookup? "recommendation"
        = some (Json.str (recommendationOf sc))
      ∧ strHasSub (recommendationOf sc) "IMMEDIATELY" = true)
    ∧ (∃ sc2 : Int,
      (analyze_viral_potential "b" (viral_user_response "smallstreamer" 100)
          viral_no_stream_response
          (followers_response 500)).lookup? "viral_score"
        = some (Json.num sc2)
      ∧ sc2 < 30) :=
  claim_viral_score_scenarios "a" "b" "Ninja" "smallstreamer" "Fortnite" "title"
    0 100 (by norm_num)

/-- Claim C7 counterexample: a successful (200) upstream response that omits
the data field the handler assumes does NOT propagate a distinguished
failure — each handler wraps its whole body in try/except Exception (lines
438/526-528 and 544/628-630) and returns the ordinary soft error payload,
exactly the shape used for non-success responses (the Python exception text
str(KeyError) is modelled as the message KeyError: data). -/
theorem claim_contract_violation_cex :
    analyze_viral_potential "streamer" ⟨200, Json.obj [("ok", Json.bool true)]⟩
        ⟨200, Json.null⟩ ⟨200, Json.null⟩
      = Json.obj [("error", Json.str "KeyError: data"), ("viral_score", Json.num 0)]
    ∧ get_automation_ready_clips none none 24 1000 ⟨200, Json.null⟩
        ⟨200, Json.obj [("items", Json.arr [])]⟩
      = Json.obj [("error", Json.str "KeyError: data"), ("clips", Json.arr [])] :=
  ⟨rfl, rfl⟩

/-- Claim C7 amended: for every invocation in which the upstream returns a
200 response whose body omits the data field, the handler catches the
resulting exception and returns the ordinary soft error payload (with
viral_score 0, resp. empty clips); no failure of any distinguished kind
propagates out of the invocation. -/
theorem claim_contract_violation_amended (n : String) (fsU : List (String × Json))
    (sResp fResp : Response) (hU : fsU.lookup "data" = none)
    (g : Option String) (hb mv : Int) (uResp : Response)
    (fsC : List (String × Json)) (hC : fsC.lookup "data" = none) :
    analyze_viral_potential n ⟨200, Json.obj fsU⟩ sResp fResp
      = Json.obj [("error", Json.str "KeyError: data"), ("viral_score", Json.num 0)]
    ∧ get_automation_ready_clips none g hb mv uResp ⟨200, Json.obj fsC⟩
      = Json.obj [("error", Json.str "KeyError: data"), ("clips", Json.arr [])] := by
  constructor
  · simp [analyze_viral_potential, analyze_viral_potential_body, Json.index, hU]
  · simp [get_automation_ready_clips, get_automation_ready_clips_core,
      Json.index, hC]

/-- Witness for amended claim C7 at concrete malformed 200 responses. -/
theorem claim_contract_violation_amended_witness :
    analyze_viral_potential "s" ⟨200, Json.obj [("ok", Json.bool true)]⟩
        ⟨200, Json.null⟩ ⟨200, Json.null⟩
      = Json.obj [("error", Json.str "KeyError: data"), ("viral_score", Json.num 0)]
    ∧ get_automation_ready_clips none none 24 1000 ⟨200, Json.null⟩
        ⟨200, Json.obj [("ok", Json.bool true)]⟩
      = Json.obj [("error", Json.str "KeyError: data"), ("clips", Json.arr [])] :=
  claim_contract_violation_amended "s" [("ok", Json.bool true)]
    ⟨200, Json.null⟩ ⟨200, Json.null⟩ rfl none 24 1000 ⟨200, Json.null⟩
    [("ok", Json.bool true)] rfl

/-- Claim C10: two invocations of get_automation_ready_clips differing only
in hours_back or game_name (same streamer, same min_view_count, same
upstream responses) return the identical clips list; hours_back and
game_name are merely echoed in the filters_applied field. -/
theorem claim_clips_independent_of_hours_and_game (su g1 g2 : Option String)
    (h1 h2 mv : Int) (ur cr : Response) :
    (get_automation_ready_clips su g1 h1 mv ur cr).lookup? "clips"
      = (get_automation_ready_clips su g2 h2 mv ur cr).lookup? "clips"
    ∧ (∀ fa, (get_automation_ready_clips su g1 h1 mv ur cr).lookup? "filters_applied"
          = some fa →
        fa.lookup? "hours_back" = some (Json.num h1)
        ∧ fa.lookup? "game" = some (optStr g1)) := by
  cases hc : get_automation_ready_clips_core su mv ur cr with
  | error e =>
      constructor
      · simp only [get_automation_ready_clips, hc]
      · intro fa hfa
        simp only [get_automation_ready_clips, hc, Json.lookup?, List.lookup] at hfa
        simp at hfa
  | ok o =>
      cases o with
      | none =>
          constructor
          · simp only [get_automation_ready_clips, hc]
          · intro fa hfa
            simp only [get_automation_ready_clips, hc, Json.lookup?, List.lookup] at hfa
            simp at hfa
      | some trip =>
          obtain ⟨ct, tot, rdy⟩ := trip
          constructor
          · simp only [get_automation_ready_clips, hc]
            rfl
          · intro fa hfa
            have hfa2 : Json.obj
                [("streamer", optStr su), ("game", optStr g1),
                 ("min_views", Json.num mv), ("hours_back", Json.num h1)] = fa := by
              have := hfa
              simp only [get_automation_ready_clips, hc] at this
              exact Option.some_injective _ this
            rw [← hfa2]
            constructor <;> rfl

/-- Witness for claim C10 at concrete inputs reaching the success path. -/
theorem claim_clips_independent_witness :
    (get_automation_ready_clips none (some "chess") 24 1000 ⟨200, Json.null⟩
        ⟨200, Json.obj [("data", Json.arr [])]⟩).lookup? "clips"
      = (get_automation_ready_clips none none 48 1000 ⟨200, Json.null⟩
        ⟨200, Json.obj [("data", Json.arr [])]⟩).lookup? "clips"
    ∧ (Json.obj [("streamer", Json.null), ("game", Json.str "chess"),
        ("min_views", Json.num 1000), ("hours_back", Json.num 24)]).lookup? "hours_back"
      = some (Json.num 24)
    ∧ (Json.obj [("streamer", Json.null), ("game", Json.str "chess"),
        ("min_views", Json.num 1000), ("hours_back", Json.num 24)]).lookup? "game"
      = some (optStr (some "chess")) := by
  have h := claim_clips_independent_of_hours_and_game none (some "chess") none
    24 48 1000 ⟨200, Json.null⟩ ⟨200, Json.obj [("data", Json.arr [])]⟩
  exact ⟨h.1, (h.2 _ rfl).1, (h.2 _ rfl).2⟩
